import Mathlib

/-!
Shallow embedding of `src/casualtesting.js`, a minimal test-authoring toolkit:
an error taxonomy (`TestError` vs general errors), an expectation engine with
type-dispatched matcher sets, a call-recording wrapper ("masque"), and a
suite/test runner with pass/fail counters.

JavaScript conventions used throughout the embedding:
- A thrown JS error is a `JSErr`: a class (modelled as its prototype chain,
  most-derived name first, ending at "Error") plus a message.  `instanceof`
  over single inheritance is suffix containment of prototype chains.
- A JS function call that either returns a value or throws is `Except JSErr`.
- Methods that either return normally or throw are embedded as functions
  returning `Option JSErr` (`none` = returned normally, `some e` = threw `e`);
  where the method also mutates state the new state is paired with the result.
- JS numbers are modelled as rationals (`ℚ`); loose equality (`==`/`!=`) on an
  arbitrary value domain is a parameter `looseEq : α → α → Bool`, since on the
  primitive values exercised here JS loose equality is an untyped binary
  predicate supplied by the host semantics.
-/

/-- A JavaScript error value: its class's prototype chain (most-derived class
name first, e.g. `["TestError", "Error"]`) and its message string. -/
structure JSErr where
  cls : List String
  msg : String
deriving DecidableEq, Repr

/-- Prototype chain of `class TestError extends Error { }` from
`src/casualtesting.js`. -/
def TestErrorChain : List String := ["TestError", "Error"]

/-- Prototype chain of the built-in `Error` class. -/
def ErrorChain : List String := ["Error"]

/-- `e instanceof K` for single-inheritance classes: `K`'s prototype chain is a
suffix of the chain of `e`'s class. -/
def instanceOf (e : JSErr) (K : List String) : Bool :=
  K.isSuffixOf e.cls

/-- Construct a `TestError` (the assertion-failure kind) with message `m`. -/
def mkTestError (m : String) : JSErr := ⟨TestErrorChain, m⟩

/-- An error is an assertion failure iff it is an `instanceof TestError`. -/
def isAssertionFailure (e : JSErr) : Bool := instanceOf e TestErrorChain

/-! ## `Expectation.yields` (src/casualtesting.js lines 222–229)

```js
yields(count) {
    let i = 0;
    for(let item of this.value) {
        if(i > count) throw new TestError(`Value yielded more than ${count} items.`);
        i++;
    }
    if(i < count) throw new TestError(`Value yielded only ${i} items of an expected ${count}`);
}
```
The wrapped value is consumed as a lazy sequence; we model the sequence of
items it yields as a `List α`.  The loop body checks `i > count` BEFORE
incrementing `i`, and the throw aborts the iteration. -/

/-- The `for..of` loop of `yields`, carrying the counter `i`. -/
def yieldsLoop (count : Nat) : Nat → List α → Option JSErr
  | i, [] =>
      if i < count then
        some (mkTestError ("Value yielded only " ++ toString i ++
          " items of an expected " ++ toString count))
      else none
  | i, _item :: rest =>
      if i > count then
        some (mkTestError ("Value yielded more than " ++ toString count ++ " items."))
      else yieldsLoop count (i + 1) rest

/-- `Expectation.yields(count)` on a value that yields the items `value`. -/
def yields (count : Nat) (value : List α) : Option JSErr :=
  yieldsLoop count 0 value

/-! ## `FunctionExpectation.toThrow` (src/casualtesting.js lines 262–275)

```js
toThrow(ExpectedError=Error) {
    try {
        this.value();
        throw new TestError('Expected function to throw an error, but it did not.')
    } catch(error) {
        if(error instanceof TestError) {
            throw error;
        }
        if(!(error instanceof ExpectedError)) {
            throw new TestError(`Expected an exception of type ${type.name}, ...`)
        }
    }
    return this;
}
```
The call `this.value()` is modelled by its result `call : Option JSErr`
(`none` = the function returned normally, `some e` = it threw `e`).
`ExpectedError` is a class, modelled as its prototype chain.  NOTE: in the
mismatched-kind branch the template literal reads `type.name`, but no variable
`type` is in scope anywhere in the module; evaluating the template therefore
throws `ReferenceError: type is not defined` before the `TestError` is ever
constructed.  The embedding reproduces that. -/

/-- The `ReferenceError` raised by evaluating `${type.name}` with `type`
undefined in module (strict-mode) scope. -/
def typeUndefinedRefError : JSErr :=
  ⟨["ReferenceError", "Error"], "type is not defined"⟩

/-- `FunctionExpectation.toThrow(ExpectedError)` where the wrapped
zero-argument function's behaviour is `call`.  Result: `none` if `toThrow`
returns normally, `some e` if it throws `e`. -/
def toThrow (call : Option JSErr) (ExpectedError : List String := ErrorChain) :
    Option JSErr :=
  let caught : JSErr :=
    match call with
    | none => mkTestError "Expected function to throw an error, but it did not."
    | some e => e
  if instanceOf caught TestErrorChain then some caught
  else if !(instanceOf caught ExpectedError) then some typeUndefinedRefError
  else none

/-! ## Masques (src/casualtesting.js lines 136–159)

```js
export const masque = (fn) => {
    var memos = new Array();
    if(!fn) fn = () => {};
    const wrapper = (...args) => {
        if(args.length == 1 && args[0] == masque.memos) {
            return memos;
        }
        let memo = { args: args };
        memos.push(memo);
        try {
            memo.result = fn(...args);
        } catch(error) {
            memo.error = error;
            throw error;
        }
        return memo.result;
    }
    wrapper.sigil = masque.sigil;
    return wrapper;
}
```
`masque.memos` is a `Symbol`, loosely equal only to itself; an argument to the
wrapper is therefore either that sentinel symbol or an ordinary value. -/

/-- One argument passed to a masque wrapper: either the `masque.memos`
sentinel symbol or an ordinary value. -/
inductive MasqueArg (α : Type) where
  | memosSym : MasqueArg α
  | val (v : α) : MasqueArg α
deriving DecidableEq, Repr

/-- One call record ("memo"): the call's arguments, then `result` set iff the
inner function returned normally, `error` set iff it threw. -/
structure Memo (α : Type) where
  args : List (MasqueArg α)
  result : Option α := none
  error : Option JSErr := none
deriving DecidableEq, Repr

/-- The wrapper's sentinel test: `args.length == 1 && args[0] == masque.memos`
(loose equality with a `Symbol` holds only for the symbol itself). -/
def isMemosLookup [DecidableEq α] (args : List (MasqueArg α)) : Bool :=
  decide (args = [MasqueArg.memosSym])

/-- What one call of a masque wrapper evaluates to. -/
inductive MasqueRet (α : Type) where
  | memosVal (log : List (Memo α))
  | retVal (v : Option α)
deriving Repr

/-- One invocation of the wrapper produced by `masque(fn)`, acting on the
closure state `memos`.  Returns the new closure state together with the call's
outcome (the memos log for a sentinel lookup; otherwise `fn`'s return value,
or a rethrow of `fn`'s error after recording it). -/
def masqueCall [DecidableEq α] (fn : List (MasqueArg α) → Except JSErr α)
    (memos : List (Memo α)) (args : List (MasqueArg α)) :
    List (Memo α) × Except JSErr (MasqueRet α) :=
  if isMemosLookup args then (memos, .ok (.memosVal memos))
  else
    match fn args with
    | .ok r => (memos ++ [{ args := args, result := some r }], .ok (.retVal (some r)))
    | .error e => (memos ++ [{ args := args, error := some e }], .error e)

/-- The memos log after a sequence of wrapper invocations, starting from the
fresh empty log. -/
def masqueRun [DecidableEq α] (fn : List (MasqueArg α) → Except JSErr α)
    (calls : List (List (MasqueArg α))) : List (Memo α) :=
  calls.foldl (fun memos args => (masqueCall fn memos args).1) []

/-! ## `MasqueExpectation.lastCalledWithArgs` (src/casualtesting.js lines 309–326)

```js
lastCalledWithArgs(...args) {
    this.typecheck();
    var memos = this.value(masque.memos);
    if(memos.length < 1) {
        throw new TestError('The function was never called.');
    }
    var last = memos.pop();
    if(args.length != last.args.length) {
        throw new TestError(`Argument list lengths to not match: ...`);
    }
    var len = args.length;
    for(let i=0; i<len; i++) {
        if(last.args[i] != args[i]) {
            throw new TestError(`Argument value at index ${i} does not match: ...`);
        }
    }
    return this;
}
```
`this.value(masque.memos)` returns the wrapper's internal memos array BY
REFERENCE, so `memos.pop()` removes the last record from the wrapper's own
log.  The embedding returns the wrapper's log as it stands after the matcher
ran, paired with the thrown error if any. -/

/-- The `for` loop of `lastCalledWithArgs`: first index at which the recorded
argument and the expected argument are not loosely equal, scanning in order. -/
def firstArgMismatch (looseEq : MasqueArg α → MasqueArg α → Bool) :
    List (MasqueArg α) → List (MasqueArg α) → Nat → Option Nat
  | [], _, _ => none
  | _, [], _ => none
  | a :: as, b :: bs, i =>
      if looseEq a b then firstArgMismatch looseEq as bs (i + 1) else some i

/-- `MasqueExpectation.lastCalledWithArgs(...args)` acting on a wrapper whose
log is `memos`.  Returns the wrapper's log after the call and the thrown error
(`none` = the matcher succeeded). -/
def lastCalledWithArgs (looseEq : MasqueArg α → MasqueArg α → Bool)
    (memos : List (Memo α)) (args : List (MasqueArg α)) :
    List (Memo α) × Option JSErr :=
  if memos.length < 1 then
    (memos, some (mkTestError "The function was never called."))
  else
    match memos.getLast? with
    | none => (memos, some (mkTestError "The function was never called."))
    | some last =>
      let memos' := memos.dropLast
      if args.length ≠ last.args.length then
        (memos', some (mkTestError "Argument list lengths to not match"))
      else
        match firstArgMismatch looseEq last.args args 0 with
        | some i =>
            (memos', some (mkTestError ("Argument value at index " ++ toString i ++
              " does not match")))
        | none => (memos', none)

/-! ## `ArrayExpectation.allEqual` (src/casualtesting.js lines 232–254)

```js
allEqual(other) {
    this.typecheck(other);
    if(this.value.length != other.length) {
        throw new TestError(`The arrays have different lengths; ...`);
    }
    const len = this.value.length;
    for(let i=0; i < len; i++) {
        let a = this.value[i];
        let b = other[i];
        if( a != b ) {
            throw new TestError(`The array values differ at index ${i} (...)`);
        }
    }
}
```
`typecheck` only confirms `other` is an `Array`, which the embedding carries
in the type of `other`.  Loose element equality is the parameter `looseEq`. -/

/-- The index loop of `allEqual`: first index at which the two arrays' elements
are not loosely equal. -/
def allEqualLoop (looseEq : α → α → Bool) : List α → List α → Nat → Option Nat
  | [], _, _ => none
  | _, [], _ => none
  | a :: as, b :: bs, i =>
      if looseEq a b then allEqualLoop looseEq as bs (i + 1) else some i

/-- `ArrayExpectation.allEqual(other)` on wrapped array `value`. -/
def allEqual (looseEq : α → α → Bool) (value other : List α) : Option JSErr :=
  if value.length ≠ other.length then
    some (mkTestError ("The arrays have different lengths; expected an array of length " ++
      toString other.length ++ " but found an array of length " ++ toString value.length))
  else
    match allEqualLoop looseEq value other 0 with
    | some i => some (mkTestError ("The array values differ at index " ++ toString i))
    | none => none

/-! ## `NumericExpectation.isCloseTo` (src/casualtesting.js lines 349–354)

```js
isCloseTo(other, precision=1e-3) {
    this.typecheck(other);
    if(Math.abs(this.value - other) > precision)
        throw new TestError(`${this.value} and ${other} are different by more than ${precision}`)
    return this;
}
```
Numbers are modelled as rationals; `typecheck(other)` confirms `other` is a
number, carried here by the type of `other`. -/

/-- `NumericExpectation.isCloseTo(other, precision)` on wrapped number
`value`. -/
def isCloseTo (value other : ℚ) (precision : ℚ := 1/1000) : Option JSErr :=
  if |value - other| > precision then
    some (mkTestError (toString value ++ " and " ++ toString other ++
      " are different by more than " ++ toString precision))
  else none

/-! ## The `expect` dispatcher (src/casualtesting.js lines 169–187)

```js
export const expect = (value) => {
    switch(typeof(value)) {
        case "number":
            return new NumericExpectation(value);
        case "function":
            if(value.sigil == masque.sigil)
                return new MasqueExpectation(value);
            else
                return new FunctionExpectation(value);
        case "object":
            if(value instanceof Array)
                return new ArrayExpectation(value);
            if(value instanceof Set)
                return new SetExpectation(value);
            // otherwise we fall through to the default case
        default:
            return new Expectation(value);
    }
}
```
The input domain is modelled as the runtime categories JavaScript values fall
into: each constructor fixes the value's `typeof` string and, for objects,
whether it is an `Array` or a `Set`; functions carry whether their `sigil`
property equals `masque.sigil`. -/

/-- A JavaScript value, abstracted to the runtime category `expect` dispatches
on. -/
inductive JSVal where
  | num (q : ℚ)
  | str (s : String)
  | boolV (b : Bool)
  | undef
  | nullV
  | func (hasSigil : Bool)
  | arr
  | set
  | obj
  | sym
  | bigint
deriving DecidableEq, Repr

/-- The `typeof` operator on the modelled categories (`typeof null` is
`"object"`). -/
def typeofV : JSVal → String
  | .num _ => "number"
  | .str _ => "string"
  | .boolV _ => "boolean"
  | .undef => "undefined"
  | .nullV => "object"
  | .func _ => "function"
  | .arr => "object"
  | .set => "object"
  | .obj => "object"
  | .sym => "symbol"
  | .bigint => "bigint"

/-- `value.sigil == masque.sigil`: true exactly for masque wrapper functions
(`sigil` is a `Symbol`, loosely equal only to itself; on non-functions the
property read yields `undefined`, which is not the sigil). -/
def hasMasqueSigil : JSVal → Bool
  | .func s => s
  | _ => false

/-- `value instanceof Array` (`null instanceof Array` is `false`). -/
def isArrayV : JSVal → Bool
  | .arr => true
  | _ => false

/-- `value instanceof Set`. -/
def isSetV : JSVal → Bool
  | .set => true
  | _ => false

/-- The expectation class `expect` instantiates. -/
inductive ExpKind where
  | numericE
  | masqueE
  | functionE
  | arrayE
  | setE
  | genericE
deriving DecidableEq, Repr

/-- The class-selection logic of `expect(value)`: the `switch` on
`typeof(value)` with the `object` case falling through to `default`. -/
def expectDispatch (v : JSVal) : ExpKind :=
  match typeofV v with
  | "number" => .numericE
  | "function" => if hasMasqueSigil v then .masqueE else .functionE
  | "object" =>
      if isArrayV v then .arrayE
      else if isSetV v then .setE
      else .genericE
  | _ => .genericE

/-- Modelled from the spec (claim C10's wording, for comparison with
`expectDispatch`): numbers get the numeric matcher set, functions carrying the
recorder marker the recorder set, other functions the function set, arrays the
sequence set, sets the set matcher set, and everything else — null included —
the generic set. -/
def claimedDispatch : JSVal → ExpKind
  | .num _ => .numericE
  | .func true => .masqueE
  | .func false => .functionE
  | .arr => .arrayE
  | .set => .setE
  | _ => .genericE

/-! ## The suite runner (src/casualtesting.js lines 18–119)

`test` and `testasync` read the module-level variable `currentsuite`
(`undefined` before any suite has started) and mutate its counters and
message buffer.  `suite` replaces `currentsuite` with a fresh `Suite`,
runs the body synchronously, awaits `Promise.allSettled` on the collected
async-test promises — by which point every `.then`/`.catch` handler attached
in `testasync` has already run, since those handlers were attached before
`allSettled` subscribed — and then reports.

A test body is modelled by its outcome (`Except JSErr Unit`); an async test
body by either a synchronous throw or a promise together with the settlement
that promise eventually reaches. -/

/-- A buffered suite message: `meta.info`/`meta.error` push one of these. -/
structure Message where
  mtype : String
  margs : List String
deriving DecidableEq, Repr

/-- The `Suite` execution context: counters, pending async-test promises
(modelled by their eventual settlements, labelled for the attached handlers),
and the buffered messages. -/
structure SuiteSt where
  asynctests : List (String × Except JSErr Unit) := []
  attempts : Nat := 0
  passed : Nat := 0
  failed : Nat := 0
  messages : List Message := []
deriving Repr

/-- The fresh context built by `new Suite()`. -/
def freshSuite : SuiteSt := {}

/-- `meta.info(...args)` — buffers an info message. -/
def suiteInfo (st : SuiteSt) (args : List String) : SuiteSt :=
  { st with messages := st.messages ++ [⟨"info", args⟩] }

/-- `meta.error(...args)` — buffers an error message. -/
def suiteError (st : SuiteSt) (args : List String) : SuiteSt :=
  { st with messages := st.messages ++ [⟨"error", args⟩] }

/-- The shared failure-classification block of `test` and of `testasync`'s
`catch` handler: increments `failed` and buffers either a FAIL message (for a
`TestError`) or a TEST CODE FAILURE message with the diagnostic hint. -/
def recordFailure (label : String) (e : JSErr) (st : SuiteSt) : SuiteSt :=
  let st := { st with failed := st.failed + 1 }
  if instanceOf e TestErrorChain then
    suiteError (suiteError st ["\tFAIL:\t" ++ label]) [e.msg]
  else
    suiteError
      (suiteInfo (suiteError st ["\tTEST CODE FAILURE:\t" ++ label])
        ["\tThis test failed due to an unexpected bug or a flaw in the test code, not due to a failed test expectation."])
      [e.msg]

/-- The body of `test(label, fn)` once `currentsuite` is an actual `Suite`:
increments `attempts`, runs `fn`, and on success increments `passed` and
buffers a PASS message while any caught error is classified by
`recordFailure`.  Nothing escapes this path. -/
def testBody (label : String) (fn : Except JSErr Unit) (st : SuiteSt) : SuiteSt :=
  let st := { st with attempts := st.attempts + 1 }
  match fn with
  | .ok _ => suiteInfo { st with passed := st.passed + 1 } ["\tPASS:\t" ++ label]
  | .error e => recordFailure label e st

/-- `test(label, fn)` as seen by its caller: reads `currentsuite` (possibly
`undefined`).  `meta.attempts++` on `undefined` throws a `TypeError` that
escapes to the caller.  Returns the new `currentsuite` and the escaping
error, if any. -/
def testRun (label : String) (fn : Except JSErr Unit) :
    Option SuiteSt → Option SuiteSt × Option JSErr
  | none =>
      (none, some ⟨["TypeError", "Error"],
        "Cannot read properties of undefined (reading 'attempts')"⟩)
  | some meta => (some (testBody label fn meta), none)

/-- The behaviour of the `asyncfn` argument to `testasync`: either it throws
synchronously when invoked, or it returns a promise, modelled by the
settlement that promise eventually reaches. -/
inductive AsyncFn where
  | syncThrow (e : JSErr)
  | promise (settlement : Except JSErr Unit)
deriving Repr

/-- The body of `testasync(label, asyncfn)` once `currentsuite` is an actual
`Suite`: increments `attempts`, then evaluates `asyncfn()`.  A synchronous
throw from `asyncfn()` happens outside any try/catch and ESCAPES to the
caller (the suite body); a returned promise is pushed onto
`meta.asynctests` with `.then`/`.catch` handlers attached (their effects are
applied at settlement time by `settleStep`). -/
def testasyncBody (label : String) (afn : AsyncFn) (st : SuiteSt) :
    SuiteSt × Option JSErr :=
  let st := { st with attempts := st.attempts + 1 }
  match afn with
  | .syncThrow e => (st, some e)
  | .promise settlement =>
      ({ st with asynctests := st.asynctests ++ [(label, settlement)] }, none)

/-- `testasync(label, asyncfn)` as seen by its caller: like `testRun`, a
`TypeError` escapes when no suite is active. -/
def testasyncRun (label : String) (afn : AsyncFn) :
    Option SuiteSt → Option SuiteSt × Option JSErr
  | none =>
      (none, some ⟨["TypeError", "Error"],
        "Cannot read properties of undefined (reading 'attempts')"⟩)
  | some meta =>
      let (st, esc) := testasyncBody label afn meta
      (some st, esc)

/-- One registration a suite body performs: a synchronous `test` call or a
`testasync` call. -/
inductive TestItem where
  | syncT (label : String) (fn : Except JSErr Unit)
  | asyncT (label : String) (afn : AsyncFn)
deriving Repr

/-- One step of the suite body: run one `test`/`testasync` registration on
the active context, reporting any escaping error. -/
def bodyStep (st : SuiteSt) : TestItem → SuiteSt × Option JSErr
  | .syncT label fn => (testBody label fn st, none)
  | .asyncT label afn => testasyncBody label afn st

/-- The synchronous execution of the suite body `fn()`: registrations run in
order until one lets an error escape, which aborts the body (and hence the
`suite` call) at that point. -/
def runBody (st : SuiteSt) : List TestItem → SuiteSt × Option JSErr
  | [] => (st, none)
  | item :: rest =>
      match bodyStep st item with
      | (st', none) => runBody st' rest
      | (st', some e) => (st', some e)

/-- Settlement of one pending async test: the `.then` handler (on success:
`passed++`, PASS message) or the `.catch` handler (on rejection: the shared
failure classification). -/
def settleStep (st : SuiteSt) : String × Except JSErr Unit → SuiteSt
  | (label, .ok _) => suiteInfo { st with passed := st.passed + 1 } ["\tPASS:\t" ++ label]
  | (label, .error e) => recordFailure label e st

/-- `await Promise.allSettled(meta.asynctests)`: by the time it resolves every
attached `.then`/`.catch` handler has run.  Applies the handlers of all
pending async tests in order. -/
def drainAsync (st : SuiteSt) : SuiteSt :=
  st.asynctests.foldl settleStep st

/-- `suite(label, fn)` where the body `fn` performs the registrations
`items`: fresh context, start message, synchronous body, await all pending
settlements, then the summary messages.  If the body lets an error escape the
`suite` call rejects with it and never reaches reporting (`none` in the first
component); otherwise the reported context is returned. -/
def suiteRun (label : String) (items : List TestItem) :
    Option SuiteSt × Option JSErr :=
  let st0 := suiteInfo freshSuite ["Starting \"" ++ label ++ "\" suite"]
  match runBody st0 items with
  | (_, some e) => (none, some e)
  | (st1, none) =>
      let st2 := drainAsync st1
      let st3 := suiteInfo st2 ["Results for \"" ++ label ++ "\" suite"]
      let st4 := suiteInfo st3
        [toString st2.passed ++ "/" ++ toString st2.attempts ++ " tests passed. " ++
          toString st2.failed ++ " tests failed"]
      let st5 := suiteInfo st4 ["---------------"]
      (some st5, none)

/-- The bookkeeping invariant the runner maintains while a suite is running:
every attempted test has either been tallied into `passed`/`failed` or is
still pending in `asynctests`. -/
def countersSettled (st : SuiteSt) : Prop :=
  st.attempts = st.passed + st.failed + st.asynctests.length

/-! ## Helper lemmas about the suite context -/

theorem suiteInfo_attempts (st : SuiteSt) (a : List String) :
    (suiteInfo st a).attempts = st.attempts := rfl

theorem suiteInfo_passed (st : SuiteSt) (a : List String) :
    (suiteInfo st a).passed = st.passed := rfl

theorem suiteInfo_failed (st : SuiteSt) (a : List String) :
    (suiteInfo st a).failed = st.failed := rfl

theorem suiteInfo_asynctests (st : SuiteSt) (a : List String) :
    (suiteInfo st a).asynctests = st.asynctests := rfl

theorem recordFailure_attempts (l : String) (e : JSErr) (st : SuiteSt) :
    (recordFailure l e st).attempts = st.attempts := by
  unfold recordFailure; split <;> rfl

theorem recordFailure_passed (l : String) (e : JSErr) (st : SuiteSt) :
    (recordFailure l e st).passed = st.passed := by
  unfold recordFailure; split <;> rfl

theorem recordFailure_failed (l : String) (e : JSErr) (st : SuiteSt) :
    (recordFailure l e st).failed = st.failed + 1 := by
  unfold recordFailure; split <;> rfl

theorem recordFailure_asynctests (l : String) (e : JSErr) (st : SuiteSt) :
    (recordFailure l e st).asynctests = st.asynctests := by
  unfold recordFailure; split <;> rfl

theorem settleStep_attempts (st : SuiteSt) (p : String × Except JSErr Unit) :
    (settleStep st p).attempts = st.attempts := by
  rcases p with ⟨l, o⟩
  cases o <;> simp [settleStep, suiteInfo_attempts, recordFailure_attempts]

theorem settleStep_sum (st : SuiteSt) (p : String × Except JSErr Unit) :
    (settleStep st p).passed + (settleStep st p).failed =
      st.passed + st.failed + 1 := by
  rcases p with ⟨l, o⟩
  cases o with
  | ok _ => simp [settleStep, suiteInfo_passed, suiteInfo_failed]; omega
  | error e =>
      simp [settleStep, recordFailure_passed, recordFailure_failed]; omega

theorem foldl_settleStep_attempts (l : List (String × Except JSErr Unit))
    (st : SuiteSt) : (l.foldl settleStep st).attempts = st.attempts := by
  induction l generalizing st with
  | nil => rfl
  | cons p rest ih => simp only [List.foldl_cons, ih, settleStep_attempts]

theorem foldl_settleStep_sum (l : List (String × Except JSErr Unit))
    (st : SuiteSt) :
    (l.foldl settleStep st).passed + (l.foldl settleStep st).failed =
      st.passed + st.failed + l.length := by
  induction l generalizing st with
  | nil => rfl
  | cons p rest ih =>
      simp only [List.foldl_cons, List.length_cons, ih, settleStep_sum]
      omega

theorem testBody_counters (label : String) (fn : Except JSErr Unit)
    (st : SuiteSt) :
    (testBody label fn st).attempts = st.attempts + 1 ∧
    (testBody label fn st).passed + (testBody label fn st).failed =
      st.passed + st.failed + 1 ∧
    (testBody label fn st).asynctests = st.asynctests := by
  cases fn with
  | ok _ =>
      refine ⟨rfl, ?_, rfl⟩
      simp [testBody, suiteInfo_passed, suiteInfo_failed]; omega
  | error e =>
      refine ⟨?_, ?_, ?_⟩
      · simp [testBody, recordFailure_attempts]
      · simp [testBody, recordFailure_passed, recordFailure_failed]; omega
      · simp [testBody, recordFailure_asynctests]

theorem bodyStep_countersSettled (st : SuiteSt) (item : TestItem)
    (st' : SuiteSt) (h : countersSettled st) (hstep : bodyStep st item = (st', none)) :
    countersSettled st' := by
  unfold countersSettled at *
  cases item with
  | syncT label fn =>
      obtain ⟨h1, h2, h3⟩ := testBody_counters label fn st
      simp only [bodyStep, Prod.mk.injEq] at hstep
      rw [← hstep.1, h1, h2, h3]; omega
  | asyncT label afn =>
      cases afn with
      | syncThrow e => simp [bodyStep, testasyncBody] at hstep
      | promise s =>
          simp only [bodyStep, testasyncBody, Prod.mk.injEq] at hstep
          obtain ⟨hst, -⟩ := hstep
          subst hst
          simp only [List.length_append, List.length_cons, List.length_nil]
          omega

theorem runBody_countersSettled (items : List TestItem) (st st' : SuiteSt)
    (h : countersSettled st) (hrun : runBody st items = (st', none)) :
    countersSettled st' := by
  induction items generalizing st with
  | nil =>
      simp only [runBody, Prod.mk.injEq] at hrun
      exact hrun.1 ▸ h
  | cons item rest ih =>
      unfold runBody at hrun
      cases hstep : bodyStep st item with
      | mk st1 esc =>
          cases esc with
          | none =>
              rw [hstep] at hrun
              exact ih st1 (bodyStep_countersSettled st item st1 h hstep) hrun
          | some e =>
              rw [hstep] at hrun
              simp at hrun

/-! ## Claim theorems -/

/-- C1: the spec demands `expect("abc").yields(3)` succeeds, `yields(2)` fails
(too many items) and `yields(4)` fails (too few items).  On the code,
`yields(3)` succeeds and `yields(4)` raises the too-few assertion failure as
claimed, but `yields(2)` ALSO succeeds: the loop's `i > count` guard only
fires from the (count+2)-th item on, so a sequence of exactly count+1 items is
accepted, contradicting the claim and the code's own "more than count items"
error message. -/
theorem yields_exact_count_check :
    yields 3 ['a', 'b', 'c'] = none ∧
    yields 4 ['a', 'b', 'c'] =
      some (mkTestError "Value yielded only 3 items of an expected 4") ∧
    yields 2 ['a', 'b', 'c'] = none := by
  refine ⟨by decide, ?_, by decide⟩
  decide

/-- C2: `toThrow(Kind)` fails with an assertion failure when the wrapped
function returns normally; lets an assertion failure thrown by the function
propagate unchanged; succeeds when the function throws `Kind` or a subtype —
but when the function throws an error NOT of kind `Kind`, evaluating the
failure message reads the undefined variable `type`, so the code raises
`ReferenceError: type is not defined` (a general failure), not the
assertion failure the claim requires. -/
theorem toThrow_classification :
    toThrow none ["TypeError", "Error"] =
      some (mkTestError "Expected function to throw an error, but it did not.") ∧
    isAssertionFailure
      (mkTestError "Expected function to throw an error, but it did not.") = true ∧
    toThrow (some (mkTestError "inner assertion")) ["TypeError", "Error"] =
      some (mkTestError "inner assertion") ∧
    toThrow (some ⟨["TypeError", "Error"], "x"⟩) ["TypeError", "Error"] = none ∧
    toThrow (some ⟨["SubTypeError", "TypeError", "Error"], "x"⟩)
      ["TypeError", "Error"] = none ∧
    toThrow (some ⟨["RangeError", "Error"], "x"⟩) ["TypeError", "Error"] =
      some typeUndefinedRefError ∧
    isAssertionFailure typeUndefinedRefError = false := by
  refine ⟨by decide, by decide, by decide, by decide, by decide, by decide, by decide⟩

/-- C3: a synchronous `test` inside an active suite traps every error its body
raises, and a `testasync` whose body returns a promise lets nothing escape;
but a `testasync` whose body throws synchronously (instead of returning a
deferred outcome) calls `asyncfn()` outside any try/catch, so the error — here
even an assertion failure — escapes to the suite body, contradicting the
claim and the code's own comment that TestErrors are always trapped by
`testasync`. -/
theorem testasync_sync_throw_escapes :
    (∀ (label : String) (fn : Except JSErr Unit) (st : SuiteSt),
      (testRun label fn (some st)).2 = none) ∧
    (∀ (label : String) (s : Except JSErr Unit) (st : SuiteSt),
      (testasyncRun label (AsyncFn.promise s) (some st)).2 = none) ∧
    (testasyncRun "boom test" (AsyncFn.syncThrow (mkTestError "boom"))
        (some freshSuite)).2 = some (mkTestError "boom") := by
  exact ⟨fun _ _ _ => rfl, fun _ _ _ => rfl, rfl⟩

/-- C4: the claim says no matcher operation removes or replaces records, so
`lastCalledWithArgs` leaves the recorder's log unchanged.  In the code
`lastCalledWithArgs` obtains the wrapper's memos array by reference and calls
`memos.pop()` on it: on a wrapper with one record whose single argument
matches, the matcher succeeds yet the log shrinks from one record to zero. -/
theorem lastCalledWithArgs_mutates_log :
    ([({ args := [MasqueArg.val (1 : ℚ)] } : Memo ℚ)]).length = 1 ∧
    lastCalledWithArgs (fun a b : MasqueArg ℚ => a == b)
        [{ args := [MasqueArg.val 1] }] [MasqueArg.val 1] = ([], none) ∧
    (lastCalledWithArgs (fun a b : MasqueArg ℚ => a == b)
        [{ args := [MasqueArg.val 1] }] [MasqueArg.val 1]).1.length = 0 := by
  refine ⟨rfl, by decide, by decide⟩

/-- C5: the claim (and the code's own doc comment on `suite`) says calling
`test` with no active suite is tolerated and raises nothing to its caller.
Before any suite has started `currentsuite` is `undefined`, so
`meta.attempts++` inside `test` throws
`TypeError: Cannot read properties of undefined` to the caller. -/
theorem test_without_active_suite_crashes :
    testRun "orphan" (Except.ok ()) none =
      (none, some ⟨["TypeError", "Error"],
        "Cannot read properties of undefined (reading 'attempts')"⟩) ∧
    isAssertionFailure ⟨["TypeError", "Error"],
        "Cannot read properties of undefined (reading 'attempts')"⟩ = false := by
  exact ⟨rfl, by decide⟩

/-- C10: `expect(value)` is total over every runtime category of input and
selects the matcher set the claim lists: numeric for numbers, recorder for
functions carrying the masque sigil, function for other functions, sequence
for arrays, set for sets, and the generic set for everything else, with
`null` (whose `typeof` is "object" but which is neither an `Array` nor a
`Set`) falling through to the generic set. -/
theorem expect_dispatch_total :
    ∀ v : JSVal, expectDispatch v = claimedDispatch v := by
  intro v
  cases v with
  | num q => rfl
  | str s => rfl
  | boolV b => rfl
  | undef => rfl
  | nullV => rfl
  | func s => cases s <;> rfl
  | arr => rfl
  | set => rfl
  | obj => rfl
  | sym => rfl
  | bigint => rfl

theorem masqueCall_args_map [DecidableEq α]
    (fn : List (MasqueArg α) → Except JSErr α) (memos : List (Memo α))
    (args : List (MasqueArg α)) :
    ((masqueCall fn memos args).1).map Memo.args =
      memos.map Memo.args ++ (if isMemosLookup args then [] else [args]) := by
  unfold masqueCall
  split
  · next h => simp [h]
  · next h => cases hfn : fn args <;> simp [h, hfn]

theorem masqueRun_go [DecidableEq α]
    (fn : List (MasqueArg α) → Except JSErr α) :
    ∀ (calls : List (List (MasqueArg α))) (memos : List (Memo α)),
      ((calls.foldl (fun m a => (masqueCall fn m a).1) memos).map Memo.args) =
        memos.map Memo.args ++ calls.filter (fun a => !isMemosLookup a) := by
  intro calls
  induction calls with
  | nil => intro memos; simp
  | cons a rest ih =>
      intro memos
      rw [List.foldl_cons, ih, masqueCall_args_map]
      by_cases h : isMemosLookup a
      · simp [h, List.filter_cons]
      · simp [h, List.filter_cons]

/-- C7: a recorder wrapper's log lists exactly the wrapper's non-sentinel
invocations: projecting each record to its argument list recovers the calls
made, in order, with their exact arguments — sentinel lookups are filtered
out; and an invocation passing the `masque.memos` sentinel as sole argument
returns the current log without appending a record. -/
theorem masque_log_faithful (α : Type) [DecidableEq α]
    (fn : List (MasqueArg α) → Except JSErr α) :
    (∀ calls : List (List (MasqueArg α)),
      (masqueRun fn calls).map Memo.args =
        calls.filter (fun a => !isMemosLookup a)) ∧
    (∀ memos : List (Memo α),
      masqueCall fn memos [MasqueArg.memosSym] =
        (memos, Except.ok (MasqueRet.memosVal memos))) := by
  constructor
  · intro calls
    unfold masqueRun
    rw [masqueRun_go]
    rfl
  · intro memos
    unfold masqueCall
    rw [if_pos]
    unfold isMemosLookup
    exact decide_eq_true rfl

/-- C8: `expect(a).isCloseTo(b, p)` succeeds precisely when `|a - b| ≤ p`,
and in particular the boundary case `p = |a - b|` succeeds: the code's
comparison `Math.abs(this.value - other) > precision` is strict, so equality
of the difference with the precision does not throw. -/
theorem isCloseTo_iff_abs_le (a b p : ℚ) (hp : 0 ≤ p) :
    (isCloseTo a b p = none ↔ |a - b| ≤ p) ∧ isCloseTo a b |a - b| = none := by
  constructor
  · unfold isCloseTo
    split
    · next h =>
        constructor
        · intro hcontra; exact absurd hcontra (by simp)
        · intro hle; exact absurd h (not_lt.mpr hle)
    · next h =>
        constructor
        · intro _; exact not_lt.mp h
        · intro _; rfl
  · unfold isCloseTo
    rw [if_neg]
    exact lt_irrefl |a - b|

/-- C8 witness: the main theorem applied at `a = 0`, `b = 1/500`,
`p = 1/100`. -/
theorem isCloseTo_iff_abs_le_witness :
    ((isCloseTo 0 (1/500) (1/100) = none ↔ |(0 : ℚ) - 1/500| ≤ 1/100) ∧
      isCloseTo 0 (1/500) |(0 : ℚ) - 1/500| = none) :=
  isCloseTo_iff_abs_le 0 (1/500) (1/100) (by norm_num)

theorem allEqualLoop_eq_none (looseEq : α → α → Bool) :
    ∀ (xs ys : List α) (i : Nat),
      (allEqualLoop looseEq xs ys i = none ↔
        ((xs.zip ys).all fun p => looseEq p.1 p.2) = true) := by
  intro xs
  induction xs with
  | nil => intro ys i; simp [allEqualLoop]
  | cons a as ih =>
      intro ys i
      cases ys with
      | nil => simp [allEqualLoop]
      | cons b bs =>
          by_cases h : looseEq a b
          · simp [allEqualLoop, h, ih bs (i + 1)]
          · simp [allEqualLoop, h]

/-- C9: `allEqual(other)` succeeds exactly when the two arrays have the same
length and are pairwise loosely equal position by position, and on the spec's
scenario `expect([1,2,3]).allEqual([1,2,4])` it raises the assertion failure
naming index 2, the first (and only) mismatching position. -/
theorem allEqual_iff_pairwise :
    (∀ (α : Type) (looseEq : α → α → Bool) (xs ys : List α),
      (allEqual looseEq xs ys = none ↔
        (xs.length = ys.length ∧
          ((xs.zip ys).all fun p => looseEq p.1 p.2) = true))) ∧
    allEqual (fun a b : ℚ => a == b) [1, 2, 3] [1, 2, 4] =
      some (mkTestError "The array values differ at index 2") := by
  constructor
  · intro α looseEq xs ys
    unfold allEqual
    split
    · next hne =>
        constructor
        · intro hcontra; exact absurd hcontra (by simp)
        · intro hand; exact absurd hand.1 hne
    · next hlen =>
        push_neg at hlen
        cases hm : allEqualLoop looseEq xs ys 0 with
        | none =>
            simp only []
            constructor
            · intro _
              exact ⟨hlen, (allEqualLoop_eq_none looseEq xs ys 0).mp hm⟩
            · intro _; trivial
        | some i =>
            simp only []
            constructor
            · intro hcontra; exact absurd hcontra (by simp)
            · intro hand
              have := (allEqualLoop_eq_none looseEq xs ys 0).mpr hand.2
              rw [hm] at this
              exact absurd this (by simp)
  · decide

/-- C6: whenever a suite reaches reporting — i.e. the body ran to completion
and every pending asynchronous outcome has settled, which is what `suiteRun`
returning a context models — the reported context satisfies
`attempts = passed + failed`; and every counter mutation during the run (a
`test`/`testasync` registration step or an async settlement handler) only
ever increases each of the three counters. -/
theorem suite_counter_invariant :
    (∀ (label : String) (items : List TestItem),
      ((suiteRun label items).1.getD freshSuite).attempts =
        ((suiteRun label items).1.getD freshSuite).passed +
          ((suiteRun label items).1.getD freshSuite).failed) ∧
    (∀ (st : SuiteSt) (item : TestItem),
      st.attempts ≤ (bodyStep st item).1.attempts ∧
      st.passed ≤ (bodyStep st item).1.passed ∧
      st.failed ≤ (bodyStep st item).1.failed) ∧
    (∀ (st : SuiteSt) (p : String × Except JSErr Unit),
      st.attempts ≤ (settleStep st p).attempts ∧
      st.passed ≤ (settleStep st p).passed ∧
      st.failed ≤ (settleStep st p).failed) := by
  refine ⟨?_, ?_, ?_⟩
  · intro label items
    simp only [suiteRun]
    rcases hrun : runBody (suiteInfo freshSuite ["Starting \"" ++ label ++ "\" suite"])
        items with ⟨st1, esc⟩
    cases esc with
    | some e => rfl
    | none =>
        have hinv : countersSettled st1 :=
          runBody_countersSettled items _ st1
            (by simp [countersSettled, freshSuite, suiteInfo]) hrun
        show (drainAsync st1).attempts = (drainAsync st1).passed + (drainAsync st1).failed
        unfold drainAsync
        rw [foldl_settleStep_attempts]
        have hsum := foldl_settleStep_sum st1.asynctests st1
        unfold countersSettled at hinv
        omega
  · intro st item
    cases item with
    | syncT label fn =>
        cases fn with
        | ok _ =>
            refine ⟨?_, ?_, ?_⟩ <;>
              simp only [bodyStep, testBody, suiteInfo_attempts, suiteInfo_passed,
                suiteInfo_failed] <;> omega
        | error e =>
            refine ⟨?_, ?_, ?_⟩ <;>
              simp only [bodyStep, testBody, recordFailure_attempts,
                recordFailure_passed, recordFailure_failed] <;> omega
    | asyncT label afn =>
        cases afn with
        | syncThrow e =>
            refine ⟨?_, ?_, ?_⟩ <;> simp only [bodyStep, testasyncBody] <;> omega
        | promise s =>
            refine ⟨?_, ?_, ?_⟩ <;> simp only [bodyStep, testasyncBody] <;> omega
  · intro st p
    rcases p with ⟨l, o⟩
    cases o with
    | ok _ =>
        refine ⟨?_, ?_, ?_⟩ <;>
          simp only [settleStep, suiteInfo_attempts, suiteInfo_passed,
            suiteInfo_failed] <;> omega
    | error e =>
        refine ⟨?_, ?_, ?_⟩ <;>
          simp only [settleStep, recordFailure_attempts, recordFailure_passed,
            recordFailure_failed] <;> omega
